import Mathlib

/-!
Verification of the option model of the lbuild library builder.

The definitions below are a shallow embedding of src/lbuild/option.py and of
src/lbuild/__main__.py.  Python values that can reach the option setters are
modelled by the type PyVal (floats are never needed by the analysed claims and
are omitted); Python exceptions are modelled with the Except monad, the type
PyError distinguishing the exception kinds the sources raise.
-/

/-- A Python value as it reaches the option model: None, a bool, an int or a
str. -/
inductive PyVal where
  | none
  | bool (b : Bool)
  | int (n : Int)
  | str (s : String)
deriving DecidableEq

/-- The exception kinds raised by the embedded code.  blob models
lbuild.exception.BlobException, blobOptionFormat models
lbuild.exception.BlobOptionFormatException, typeError and keyError model the
Python built-in TypeError and KeyError. -/
inductive PyError where
  | blob (msg : String)
  | blobOptionFormat (optionName : String)
  | typeError (msg : String)
  | keyError (msg : String)
deriving DecidableEq

/-- The owner of an option: no owner, a repository (by name) or a module (by
its fullname), mirroring the repository and module fields of class Option. -/
inductive Scope where
  | none
  | repo (name : String)
  | mod (fullname : String)
deriving DecidableEq

/-- Python str() on the embedded values. -/
def pyStr : PyVal → String
  | PyVal.none => "None"
  | PyVal.bool b => if b then "True" else "False"
  | PyVal.int n => toString n
  | PyVal.str s => s

/-- Python type(value).__name__ on the embedded values. -/
def pyTypeName : PyVal → String
  | PyVal.none => "NoneType"
  | PyVal.bool _ => "bool"
  | PyVal.int _ => "int"
  | PyVal.str _ => "str"

/-- ASCII lower casing of one character, as Python str.lower acts on the
ASCII letters of the literals the claims concern. -/
def pyLowerChar (c : Char) : Char :=
  if 'A' ≤ c ∧ c ≤ 'Z' then Char.ofNat (c.toNat + 32) else c

/-- Python str.lower over the characters of a string. -/
def pyLower (s : String) : String :=
  String.mk (s.data.map pyLowerChar)

/-- Option.fullname: the scope path segments joined with the name by colons. -/
def fullname (scope : Scope) (name : String) : String :=
  match scope with
  | Scope.mod m => m ++ ":" ++ name
  | Scope.repo r => r ++ ":" ++ name
  | Scope.none => name

/-- The numeric value of one character, as Python int() reads digits
(0-9, a-z, A-Z). -/
def charDigit (c : Char) : Option Nat :=
  if '0' ≤ c ∧ c ≤ '9' then some (c.toNat - '0'.toNat)
  else if 'a' ≤ c ∧ c ≤ 'z' then some (c.toNat - 'a'.toNat + 10)
  else if 'A' ≤ c ∧ c ≤ 'Z' then some (c.toNat - 'A'.toNat + 10)
  else none

/-- Whether c is a digit of base b for Python int(). -/
def isDigitFor (b : Nat) (c : Char) : Bool :=
  match charDigit c with
  | some d => d < b
  | none => false

/-- A valid digit run of a Python int literal: nonempty, starting and ending
with a digit of the base, single underscores allowed between digits. -/
def digitSeq (b : Nat) : List Char → Bool
  | [] => false
  | [c] => isDigitFor b c
  | c :: c2 :: cs =>
    isDigitFor b c && (if c2 = '_' then digitSeq b cs else digitSeq b (c2 :: cs))

/-- The value of a digit run read most significant first, underscores
skipped. -/
def digitsVal (b : Nat) (cs : List Char) : Nat :=
  cs.foldl (fun acc c => if c = '_' then acc else acc * b + (charDigit c).getD 0) 0

/-- The ASCII whitespace Python strips around an int literal. -/
def pyIsSpace (c : Char) : Bool :=
  c = ' ' || c = '\t' || c = '\n' || c = '\r' || c = '\x0b' || c = '\x0c'

/-- Python str.strip() over the character list of the literal. -/
def stripWs (cs : List Char) : List Char :=
  ((cs.dropWhile pyIsSpace).reverse.dropWhile pyIsSpace).reverse

/-- Parse the digits following a base marker such as 0x; Python allows one
underscore directly after the marker. -/
def radixDigitsParse (sign : Int) (b : Nat) (rest : List Char) : Option Int :=
  match rest with
  | [] => none
  | c :: rest2 =>
    if c = '_' then
      if digitSeq b rest2 then some (sign * (digitsVal b rest2 : Int)) else none
    else
      if digitSeq b (c :: rest2) then some (sign * (digitsVal b (c :: rest2) : Int))
      else none

/-- A decimal literal of int(s, 0) may not carry a leading zero unless every
digit is zero. -/
def decZerosOk : List Char → Bool
  | [] => true
  | c :: cs => if c = '0' then (c :: cs).all (fun x => x = '0' || x = '_') else true

/-- Parse a plain decimal literal (no base marker). -/
def decimalParse (sign : Int) (cs : List Char) : Option Int :=
  if digitSeq 10 cs then
    if decZerosOk cs then some (sign * (digitsVal 10 cs : Int)) else none
  else none

/-- int(s, 0) after sign removal: dispatch on the 0x, 0o and 0b base
markers. -/
def pyIntCore (sign : Int) (cs : List Char) : Option Int :=
  match cs with
  | c0 :: c1 :: rest =>
    if c0 = '0' then
      if c1 = 'x' ∨ c1 = 'X' then radixDigitsParse sign 16 rest
      else if c1 = 'o' ∨ c1 = 'O' then radixDigitsParse sign 8 rest
      else if c1 = 'b' ∨ c1 = 'B' then radixDigitsParse sign 2 rest
      else decimalParse sign (c0 :: c1 :: rest)
    else decimalParse sign (c0 :: c1 :: rest)
  | cs2 => decimalParse sign cs2

/-- Python int(value, 0) on an ASCII string: strip whitespace, read an
optional sign, then dispatch on the base marker.  Non-ASCII digits and
whitespace are outside the inputs the claims concern. -/
def pyIntBase0 (s : String) : Option Int :=
  match stripWs s.data with
  | [] => Option.none
  | c :: rest =>
    if c = '+' then pyIntCore 1 rest
    else if c = '-' then pyIntCore (-1) rest
    else pyIntCore 1 (c :: rest)

/-- Class Option of src/lbuild/option.py, the base class used for string
based options; named StringOption because Lean already takes the name
Option. -/
structure StringOption where
  name : String
  description : String
  scope : Scope
  _value : PyVal
deriving DecidableEq

/-- Class BooleanOption. -/
structure BooleanOption where
  name : String
  description : String
  scope : Scope
  _value : PyVal
deriving DecidableEq

/-- Class NumericOption. -/
structure NumericOption where
  name : String
  description : String
  scope : Scope
  minimum : Option Int
  maximum : Option Int
  _value : PyVal
deriving DecidableEq

/-- Class EnumerationOption as built from a list of unique strings: the enum
created by enum.Enum(name, dict(zip(enumeration, enumeration))) has the list
entries as member names and every member value equal to its name.  The field
_value holds the name of the current member, or none when unset. -/
structure EnumerationOption where
  name : String
  description : String
  scope : Scope
  enumeration : List String
  _value : Option String
deriving DecidableEq

/-- The message of the BlobException raised by Option.__init__ on a name that
holds a colon. -/
def colonMsg (name : String) : String :=
  "Character ':' is not allowed in options name '" ++ name ++ "'"

/-- Option.__init__: a name holding the reserved character ':' is refused.
Python tests the one character needle with a substring search, which is
exactly a character search. -/
def mkOption (name description : String) (default : PyVal) :
    Except PyError StringOption :=
  if name.data.contains ':' then Except.error (PyError.blob (colonMsg name))
  else
    Except.ok
      { name := name, description := description, scope := Scope.none,
        _value := default }

/-- BooleanOption.as_boolean.  A value that is neither None nor a bool is
rendered with str() and compared lower cased against the boolean literals. -/
def asBoolean (v : PyVal) : Except PyError PyVal :=
  match v with
  | PyVal.none => Except.ok PyVal.none
  | PyVal.bool b => Except.ok (PyVal.bool b)
  | v2 =>
    if pyLower (pyStr v2) ∈ (["true", "yes", "1"] : List String) then
      Except.ok (PyVal.bool true)
    else if pyLower (pyStr v2) ∈ (["false", "no", "0"] : List String) then
      Except.ok (PyVal.bool false)
    else
      Except.error (PyError.blob ("Value '" ++ pyStr v2 ++ "' (" ++ pyTypeName v2 ++
        ") must be boolean"))

/-- The BooleanOption value setter. -/
def booleanSetValue (o : BooleanOption) (v : PyVal) : Except PyError BooleanOption :=
  (asBoolean v).map (fun nv => { o with _value := nv })

/-- BooleanOption.__init__: the default is False and a default that is not
None goes through the value setter. -/
def mkBooleanOption (name description : String) (default : PyVal) :
    Except PyError BooleanOption :=
  if name.data.contains ':' then Except.error (PyError.blob (colonMsg name))
  else
    let o : BooleanOption :=
      { name := name, description := description, scope := Scope.none,
        _value := PyVal.none }
    if default = PyVal.none then Except.ok o else booleanSetValue o default

/-- NumericOption.as_numeric_value.  A Python bool passes the
isinstance(value, (int, float)) test and is returned unchanged; PyVal has no
float, the float branch never matters for the analysed claims. -/
def asNumericValue (v : PyVal) : Except PyError PyVal :=
  match v with
  | PyVal.none => Except.ok PyVal.none
  | PyVal.bool b => Except.ok (PyVal.bool b)
  | PyVal.int n => Except.ok (PyVal.int n)
  | PyVal.str s =>
    match pyIntBase0 s with
    | some n => Except.ok (PyVal.int n)
    | Option.none =>
      Except.error (PyError.blob ("Value '" ++ s ++ "' (str) must be numeric"))

/-- The Python comparison numeric_value < bound against an int bound: ints
and bools compare numerically, None against an int raises TypeError. -/
def pyLtInt (v : PyVal) (m : Int) : Except PyError Bool :=
  match v with
  | PyVal.int n => Except.ok (decide (n < m))
  | PyVal.bool b => Except.ok (decide ((if b then (1 : Int) else 0) < m))
  | PyVal.none =>
    Except.error (PyError.typeError "unsupported comparison of NoneType and int")
  | PyVal.str _ =>
    Except.error (PyError.typeError "unsupported comparison of str and int")

/-- One range guard of the NumericOption value setter.  The source evaluates
the comparison, which can raise a TypeError, but the BlobException the guard
builds is never raised; a guard the comparison runs through has no effect. -/
def numericRangeGuard (nv : PyVal) (bound : Option Int) : Except PyError Unit :=
  match bound with
  | Option.none => Except.ok ()
  | Option.some m => (pyLtInt nv m).map (fun _ => ())

/-- The NumericOption value setter, faithful to the source: both guards only
evaluate their comparison and the parsed value is always stored when no
exception escapes a comparison. -/
def numericSetValue (o : NumericOption) (v : PyVal) : Except PyError NumericOption :=
  match asNumericValue v with
  | Except.error e => Except.error e
  | Except.ok nv =>
    match numericRangeGuard nv o.minimum with
    | Except.error e => Except.error e
    | Except.ok _ =>
      match numericRangeGuard nv o.maximum with
      | Except.error e => Except.error e
      | Except.ok _ => Except.ok { o with _value := nv }

/-- NumericOption.__init__. -/
def mkNumericOption (name description : String) (minimum maximum : Option Int)
    (default : PyVal) : Except PyError NumericOption :=
  if name.data.contains ':' then Except.error (PyError.blob (colonMsg name))
  else
    let o : NumericOption :=
      { name := name, description := description, scope := Scope.none,
        minimum := minimum, maximum := maximum, _value := PyVal.none }
    if default = PyVal.none then Except.ok o else numericSetValue o default

/-- EnumerationOption.as_enumeration: an embedded value carries no name
attribute, so the source falls through to indexing self._enumeration with the
value, and indexing an Enum class with anything but a member name raises
KeyError. -/
def asEnumeration (o : EnumerationOption) (v : PyVal) : Except PyError String :=
  match v with
  | PyVal.str s =>
    if s ∈ o.enumeration then Except.ok s else Except.error (PyError.keyError s)
  | v2 => Except.error (PyError.keyError (pyStr v2))

/-- The EnumerationOption value setter. -/
def enumSetValue (o : EnumerationOption) (v : PyVal) : Except PyError EnumerationOption :=
  (asEnumeration o v).map (fun nv => { o with _value := some nv })

/-- The EnumerationOption value getter: None when unset, else the value of
the stored member, which equals the member name for the list construction. -/
def enumValueGet (o : EnumerationOption) : Option String :=
  o._value

/-- EnumerationOption.__init__ on a list argument: a list of unique entries
becomes an enum whose member names and values are the entries.  With
duplicate entries the source falls to enum.Enum(name, enumeration), which
raises a TypeError on a reused name.  Python tests uniqueness by comparing
len(enumeration) with len(set(enumeration)), the number of distinct
entries. -/
def mkEnumerationOption (name description : String) (enumeration : List String)
    (default : PyVal) : Except PyError EnumerationOption :=
  if name.data.contains ':' then Except.error (PyError.blob (colonMsg name))
  else if enumeration.eraseDups.length = enumeration.length then
    let o : EnumerationOption :=
      { name := name, description := description, scope := Scope.none,
        enumeration := enumeration, _value := Option.none }
    if default = PyVal.none then Except.ok o else enumSetValue o default
  else Except.error (PyError.typeError "Attempted to reuse key")

/-- EnumerationOption.values: the member names, sorted.  Python sorts strings
lexicographically by code point; the comparison is written over the character
lists, which is the String order read through String.le_iff_toList_le. -/
def enumValues (o : EnumerationOption) : List String :=
  List.insertionSort (fun a b => a.data ≤ b.data) o.enumeration

/-- EnumerationOption.values_hint: the sorted names joined by a comma and a
space. -/
def enumValuesHint (o : EnumerationOption) : String :=
  String.intercalate ", " (enumValues o)

/-- Option.format, shared by the string, boolean and numeric kinds as
inherited from class Option.  The set case renders two spaces between the
value and the opening bracket of the hint. -/
def optionFormat (fn : String) (value : PyVal) (hint : String) : String :=
  if value = PyVal.none then fn ++ " = [" ++ hint ++ "]"
  else fn ++ " = " ++ pyStr value ++ "  [" ++ hint ++ "]"

/-- Format of a string option, hint "String". -/
def StringOption.format (o : StringOption) : String :=
  optionFormat (fullname o.scope o.name) o._value "String"

/-- Format of a boolean option, hint "True, False". -/
def BooleanOption.format (o : BooleanOption) : String :=
  optionFormat (fullname o.scope o.name) o._value "True, False"

/-- NumericOption.values: the bounds joined by an ellipsis, with infinities
for missing bounds. -/
def numericValuesHint (o : NumericOption) : String :=
  (match o.minimum with
   | Option.none => "-Inf"
   | Option.some m => toString m) ++ " ... " ++
  (match o.maximum with
   | Option.none => "+Inf"
   | Option.some m => toString m)

/-- Format of a numeric option. -/
def NumericOption.format (o : NumericOption) : String :=
  optionFormat (fullname o.scope o.name) o._value (numericValuesHint o)

/-- One greedy line-filling step over the words of a text. -/
def greedyStep (width : Int) (st : List String × Option String) (w : String) :
    List String × Option String :=
  match st.2 with
  | Option.none => (st.1, some w)
  | Option.some line =>
    if (line.length + 1 + w.length : Int) ≤ width then (st.1, some (line ++ " " ++ w))
    else (st.1 ++ [line], some w)

/-- Modelled from the spec: the source calls lbuild.filter.wordwrap and the
file lbuild/filter.py is not among the sources.  Section 4.1 only requires a
deterministic line wrap bounded to a fixed column width that may be
reimplemented freely; we wrap greedily and leave a text that fits the width
unchanged. -/
def wordwrap (text : String) (width : Int) : String :=
  if (text.length : Int) ≤ width then text
  else
    match (text.splitOn " ").foldl (greedyStep width) ([], Option.none) with
    | (ls, Option.none) => String.intercalate "\n" ls
    | (ls, Option.some line) => String.intercalate "\n" (ls ++ [line])

/-- Indent every continuation line by n spaces. -/
def indentChars (n : Nat) : List Char → List Char
  | [] => []
  | c :: cs =>
    if c = '\n' then c :: (List.replicate n ' ' ++ indentChars n cs)
    else c :: indentChars n cs

/-- Modelled from the spec: the source calls lbuild.filter.indent, missing
like wordwrap above; continuation lines are indented, a text without line
breaks is left unchanged. -/
def indentStr (n : Nat) (text : String) : String :=
  String.mk (indentChars n text.data)

/-- Python values[0:k] on a string for an int k: a negative k counts from the
end of the string. -/
def pySlice0 (s : String) (k : Int) : String :=
  if 0 ≤ k then s.take k.toNat else s.take ((s.length : Int) + k).toNat

/-- EnumerationOption.format with LINEWITH = 120: the unset case wraps and
indents the hint under the opening bracket, the set case truncates a hint
that would overflow the line and appends an ellipsis mark. -/
def enumFormat (o : EnumerationOption) : String :=
  let nm := fullname o.scope o.name ++ " = "
  match o._value with
  | Option.none =>
    let hint := enumValuesHint o
    let output := indentStr (nm.length + 1) (wordwrap hint ((120 : Int) - (nm.length : Int) - 1))
    nm ++ "[" ++ output ++ "]"
  | Option.some v =>
    let hint := enumValuesHint o
    let overhead : Nat := nm.length + 4
    let hint2 :=
      if 120 < hint.length + overhead then
        pySlice0 hint ((120 : Int) - (overhead : Int) - 4) ++ " ..."
      else hint
    nm ++ v ++ "  [" ++ hint2 ++ "]"

/-- Python name.split on the one character separator ':': empty pieces are
kept and the empty string splits into one empty piece. -/
def splitColon : List Char → List (List Char)
  | [] => [[]]
  | c :: cs =>
    if c = ':' then [] :: splitColon cs
    else
      match splitColon cs with
      | [] => [[c]]
      | g :: gs => (c :: g) :: gs

/-- The function is_repository_option of src/lbuild/__main__.py: fewer than
two colon separated parts raise BlobOptionFormatException, exactly two parts
mean a repository option, more mean a module option. -/
def is_repository_option (optionName : String) : Except PyError Bool :=
  let parts := splitColon optionName.data
  if parts.length < 2 then Except.error (PyError.blobOptionFormat optionName)
  else if parts.length = 2 then Except.ok true
  else Except.ok false

/-- Render a natural number in base b, most significant digit first, lower
case letters for digits past nine. -/
def digitToChar (d : Nat) : Char :=
  if d < 10 then Char.ofNat ('0'.toNat + d) else Char.ofNat ('a'.toNat + d - 10)

/-- The character list of the base b rendering of n. -/
def renderChars (b n : Nat) : List Char :=
  if n = 0 then ['0'] else ((Nat.digits b n).reverse.map digitToChar)

/-- The base b literal body of n as a string. -/
def digitsRender (b n : Nat) : String :=
  String.mk (renderChars b n)

/-- The hexadecimal literal of n, as Python hex() writes it. -/
def hexLit (n : Nat) : String :=
  "0x" ++ digitsRender 16 n

/-- The octal literal of n. -/
def octLit (n : Nat) : String :=
  "0o" ++ digitsRender 8 n

/-- The binary literal of n. -/
def binLit (n : Nat) : String :=
  "0b" ++ digitsRender 2 n

/-- The decimal literal of n. -/
def decLit (n : Nat) : String :=
  digitsRender 10 n

/-- Case-insensitive equality of strings, the reading of "equal, ignoring
letter case" used to state the boolean literal claim. -/
def eqIgnoreCase (s t : String) : Prop :=
  pyLower s = pyLower t

instance (s t : String) : Decidable (eqIgnoreCase s t) :=
  inferInstanceAs (Decidable (pyLower s = pyLower t))

/-- Appending strings appends their character lists. -/
theorem strData_append (a b : String) : (a ++ b).data = a.data ++ b.data :=
  rfl

/-- String append is associative. -/
theorem strAppend_assoc (a b c : String) : a ++ b ++ c = a ++ (b ++ c) := by
  cases a with
  | mk da =>
    cases b with
    | mk db =>
      cases c with
      | mk dc =>
        show String.mk ((da ++ db) ++ dc) = String.mk (da ++ (db ++ dc))
        rw [List.append_assoc]

/-- Indenting a text without line breaks changes nothing. -/
theorem indentChars_no_newline (n : Nat) :
    ∀ cs : List Char, (∀ c ∈ cs, c ≠ '\n') → indentChars n cs = cs := by
  intro cs h
  induction cs with
  | nil => rfl
  | cons c cs ih =>
    have hc : c ≠ '\n' := h c (List.mem_cons_self c cs)
    have hcs : ∀ x ∈ cs, x ≠ '\n' := fun x hx => h x (List.mem_cons_of_mem c hx)
    simp [indentChars, hc, ih hcs]

/-- C1.  The claim reads: setting a NumericOption with declared bounds to a
number outside them fails with a ValueError-kind error, setting a boundary
value succeeds.  The code is wrong: the value setter builds the two
BlobException objects without raising them (and the maximum guard even
compares with the wrong direction), so on the [0, 10] option the boundary
sets succeed as claimed but setting 11 also succeeds and silently stores the
out-of-range number. -/
theorem numeric_range_not_enforced :
    numericSetValue
        { name := "num", description := "", scope := Scope.none,
          minimum := some 0, maximum := some 10, _value := PyVal.none }
        (PyVal.str "0")
      = Except.ok
        { name := "num", description := "", scope := Scope.none,
          minimum := some 0, maximum := some 10, _value := PyVal.int 0 } ∧
    numericSetValue
        { name := "num", description := "", scope := Scope.none,
          minimum := some 0, maximum := some 10, _value := PyVal.none }
        (PyVal.str "10")
      = Except.ok
        { name := "num", description := "", scope := Scope.none,
          minimum := some 0, maximum := some 10, _value := PyVal.int 10 } ∧
    numericSetValue
        { name := "num", description := "", scope := Scope.none,
          minimum := some 0, maximum := some 10, _value := PyVal.none }
        (PyVal.str "11")
      = Except.ok
        { name := "num", description := "", scope := Scope.none,
          minimum := some 0, maximum := some 10, _value := PyVal.int 11 } :=
  ⟨rfl, rfl, rfl⟩

/-- C2.  The claim reads: after every successful set the stored value lies in
the declared value-space.  Against the same unraised-exception slip as C1, a
numeric option declared over [0, 10] accepts the literal -5 and ends up
storing a value outside its declared space; an unparsable literal still
signals an error, and the pure setter leaves the previous value untouched in
that case. -/
theorem setter_stores_out_of_space_value :
    numericSetValue
        { name := "num", description := "", scope := Scope.none,
          minimum := some 0, maximum := some 10, _value := PyVal.int 5 }
        (PyVal.str "-5")
      = Except.ok
        { name := "num", description := "", scope := Scope.none,
          minimum := some 0, maximum := some 10, _value := PyVal.int (-5) } ∧
    ((-5 : Int) < 0) ∧
    numericSetValue
        { name := "num", description := "", scope := Scope.none,
          minimum := some 0, maximum := some 10, _value := PyVal.int 5 }
        (PyVal.str "abc")
      = Except.error (PyError.blob "Value 'abc' (str) must be numeric") :=
  ⟨rfl, by decide, rfl⟩

/-- C3.  A string literal equal, ignoring letter case, to true, yes or 1
stores the canonical True; one equal to false, no or 0 stores the canonical
False; every other string literal fails with the ValueError-kind
BlobException of as_boolean. -/
theorem boolean_literal_resolution (o : BooleanOption) (s : String) :
    ((eqIgnoreCase s "true" ∨ eqIgnoreCase s "yes" ∨ eqIgnoreCase s "1") →
      booleanSetValue o (PyVal.str s) = Except.ok { o with _value := PyVal.bool true }) ∧
    ((eqIgnoreCase s "false" ∨ eqIgnoreCase s "no" ∨ eqIgnoreCase s "0") →
      booleanSetValue o (PyVal.str s) = Except.ok { o with _value := PyVal.bool false }) ∧
    (¬(eqIgnoreCase s "true" ∨ eqIgnoreCase s "yes" ∨ eqIgnoreCase s "1") →
     ¬(eqIgnoreCase s "false" ∨ eqIgnoreCase s "no" ∨ eqIgnoreCase s "0") →
      booleanSetValue o (PyVal.str s) =
        Except.error (PyError.blob ("Value '" ++ s ++ "' (str) must be boolean"))) := by
  have htr : pyLower "true" = "true" := rfl
  have hys : pyLower "yes" = "yes" := rfl
  have h1 : pyLower "1" = "1" := rfl
  have hfa : pyLower "false" = "false" := rfl
  have hno : pyLower "no" = "no" := rfl
  have h0 : pyLower "0" = "0" := rfl
  refine ⟨fun h => ?_, fun h => ?_, fun h1t h2f => ?_⟩
  · have hm : pyLower s ∈ (["true", "yes", "1"] : List String) := by
      rcases h with h | h | h
      · simp only [eqIgnoreCase, htr] at h
        simp [h]
      · simp only [eqIgnoreCase, hys] at h
        simp [h]
      · simp only [eqIgnoreCase, h1] at h
        simp [h]
    simp [booleanSetValue, asBoolean, pyStr, hm, Except.map]
  · have hm : pyLower s ∈ (["false", "no", "0"] : List String) := by
      rcases h with h | h | h
      · simp only [eqIgnoreCase, hfa] at h
        simp [h]
      · simp only [eqIgnoreCase, hno] at h
        simp [h]
      · simp only [eqIgnoreCase, h0] at h
        simp [h]
    have hm2 : pyLower s ∉ (["true", "yes", "1"] : List String) := by
      simp only [List.mem_cons, List.not_mem_nil, or_false] at hm ⊢
      rcases hm with h | h | h <;> rw [h] <;> decide
    simp [booleanSetValue, asBoolean, pyStr, hm, hm2, Except.map]
  · have hm1 : pyLower s ∉ (["true", "yes", "1"] : List String) := by
      simp only [eqIgnoreCase, htr, hys, h1, not_or] at h1t
      simp [List.mem_cons, h1t.1, h1t.2.1, h1t.2.2]
    have hm2 : pyLower s ∉ (["false", "no", "0"] : List String) := by
      simp only [eqIgnoreCase, hfa, hno, h0, not_or] at h2f
      simp [List.mem_cons, h2f.1, h2f.2.1, h2f.2.2]
    simp only [booleanSetValue, asBoolean, pyStr, pyTypeName, hm1, hm2, if_neg,
      Except.map]
    simp only [strAppend_assoc]
    rfl

/-- Witness for C3: the three literal classes at concrete inputs. -/
theorem boolean_literal_resolution_witness :
    booleanSetValue
        { name := "flag", description := "", scope := Scope.none, _value := PyVal.none }
        (PyVal.str "TRUE")
      = Except.ok
        { name := "flag", description := "", scope := Scope.none, _value := PyVal.bool true } ∧
    booleanSetValue
        { name := "flag", description := "", scope := Scope.none, _value := PyVal.none }
        (PyVal.str "No")
      = Except.ok
        { name := "flag", description := "", scope := Scope.none, _value := PyVal.bool false } ∧
    booleanSetValue
        { name := "flag", description := "", scope := Scope.none, _value := PyVal.none }
        (PyVal.str "maybe")
      = Except.error (PyError.blob "Value 'maybe' (str) must be boolean") := by
  refine ⟨?_, ?_, ?_⟩
  · exact (boolean_literal_resolution _ "TRUE").1 (Or.inl (by decide))
  · exact (boolean_literal_resolution _ "No").2.1 (Or.inr (Or.inl (by decide)))
  · exact (boolean_literal_resolution _ "maybe").2.2 (by decide) (by decide)

/-- C6.  A qualified name with exactly two colon separated segments is
classified as a repository option, more segments are classified as a module
option, fewer raise the FormatError-kind BlobOptionFormatException. -/
theorem repository_option_classification (optionName : String) :
    ((splitColon optionName.data).length < 2 →
      is_repository_option optionName =
        Except.error (PyError.blobOptionFormat optionName)) ∧
    ((splitColon optionName.data).length = 2 →
      is_repository_option optionName = Except.ok true) ∧
    (2 < (splitColon optionName.data).length →
      is_repository_option optionName = Except.ok false) := by
  refine ⟨fun h => ?_, fun h => ?_, fun h => ?_⟩
  · simp [is_repository_option, h]
  · simp [is_repository_option, h]
  · have h1 : ¬ (splitColon optionName.data).length < 2 := by omega
    have h2 : ¬ (splitColon optionName.data).length = 2 := by omega
    simp [is_repository_option, h1, h2]

/-- Witness for C6: one name of each segment count. -/
theorem repository_option_classification_witness :
    is_repository_option "noseg" = Except.error (PyError.blobOptionFormat "noseg") ∧
    is_repository_option "repo:opt" = Except.ok true ∧
    is_repository_option "repo:mod:opt" = Except.ok false := by
  refine ⟨?_, ?_, ?_⟩
  · exact (repository_option_classification "noseg").1 (by decide)
  · exact (repository_option_classification "repo:opt").2.1 (by decide)
  · exact (repository_option_classification "repo:mod:opt").2.2 (by decide)

/-- C7.  Every option constructor runs the base check of Option.__init__: a
name holding a colon makes every kind of construction fail with the
FormatError-kind BlobException and no option value is produced, while a
colon-free name constructs an option storing exactly that name. -/
theorem option_name_colon_rejected (name description : String) (default : PyVal)
    (minimum maximum : Option Int) (xs : List String) :
    (name.data.contains ':' = true →
      mkOption name description default =
        Except.error (PyError.blob (colonMsg name)) ∧
      mkBooleanOption name description (PyVal.bool false) =
        Except.error (PyError.blob (colonMsg name)) ∧
      mkNumericOption name description minimum maximum PyVal.none =
        Except.error (PyError.blob (colonMsg name)) ∧
      mkEnumerationOption name description xs PyVal.none =
        Except.error (PyError.blob (colonMsg name))) ∧
    (name.data.contains ':' = false →
      mkOption name description default =
        Except.ok { name := name, description := description, scope := Scope.none,
                    _value := default } ∧
      mkBooleanOption name description (PyVal.bool false) =
        Except.ok { name := name, description := description, scope := Scope.none,
                    _value := PyVal.bool false } ∧
      mkNumericOption name description minimum maximum PyVal.none =
        Except.ok { name := name, description := description, scope := Scope.none,
                    minimum := minimum, maximum := maximum, _value := PyVal.none } ∧
      (xs.eraseDups.length = xs.length →
        mkEnumerationOption name description xs PyVal.none =
          Except.ok { name := name, description := description, scope := Scope.none,
                      enumeration := xs, _value := Option.none })) := by
  constructor
  · intro h
    have hm : ':' ∈ name.data := by simpa using h
    refine ⟨?_, ?_, ?_, ?_⟩ <;> simp [mkOption, mkBooleanOption, mkNumericOption,
      mkEnumerationOption, hm]
  · intro h
    have hm : ':' ∉ name.data := by simpa using h
    refine ⟨?_, ?_, ?_, ?_⟩
    · simp [mkOption, hm]
    · simp [mkBooleanOption, hm, booleanSetValue, asBoolean, Except.map]
    · simp [mkNumericOption, hm]
    · intro hdup
      simp [mkEnumerationOption, hm, hdup]

/-- Witness for C7: a name with a colon is refused, a clean name is stored. -/
theorem option_name_colon_rejected_witness :
    mkOption "bad:name" "" PyVal.none =
      Except.error (PyError.blob (colonMsg "bad:name")) ∧
    mkOption "goodname" "" PyVal.none =
      Except.ok { name := "goodname", description := "", scope := Scope.none,
                  _value := PyVal.none } ∧
    mkEnumerationOption "goodname" "" ["a", "b"] PyVal.none =
      Except.ok { name := "goodname", description := "", scope := Scope.none,
                  enumeration := ["a", "b"], _value := Option.none } := by
  refine ⟨?_, ?_, ?_⟩
  · exact ((option_name_colon_rejected "bad:name" "" PyVal.none Option.none
      Option.none []).1 (by decide)).1
  · exact ((option_name_colon_rejected "goodname" "" PyVal.none Option.none
      Option.none []).2 (by decide)).1
  · exact ((option_name_colon_rejected "goodname" "" PyVal.none Option.none
      Option.none ["a", "b"]).2 (by decide)).2.2.2 (by decide)

/-- Counterexample for C9: a NumericOption with a declared minimum does not
accept None; the range guard evaluates the comparison of None with the bound
and that comparison raises a TypeError, contradicting the claim that setting
None always succeeds for every NumericOption. -/
theorem none_set_bounded_numeric_rejected :
    numericSetValue
        { name := "num", description := "", scope := Scope.none,
          minimum := some 0, maximum := Option.none, _value := PyVal.int 5 }
        PyVal.none
      = Except.error
          (PyError.typeError "unsupported comparison of NoneType and int") :=
  rfl

/-- C9 as amended.  Setting None succeeds and returns the option to the unset
state for every BooleanOption, and for every NumericOption that declares
neither a minimum nor a maximum; a declared bound instead makes the None set
fail with a TypeError-kind error from the range comparison. -/
theorem none_set_returns_unset (o : BooleanOption) (o2 : NumericOption)
    (hmin : o2.minimum = Option.none) (hmax : o2.maximum = Option.none) :
    booleanSetValue o PyVal.none = Except.ok { o with _value := PyVal.none } ∧
    numericSetValue o2 PyVal.none = Except.ok { o2 with _value := PyVal.none } := by
  constructor
  · rfl
  · simp [numericSetValue, asNumericValue, hmin, hmax, numericRangeGuard]

/-- Witness for C9: a set boolean option and an unbounded numeric option are
both returned to the unset state by a None set. -/
theorem none_set_returns_unset_witness :
    booleanSetValue
        { name := "flag", description := "", scope := Scope.none,
          _value := PyVal.bool true }
        PyVal.none
      = Except.ok
        { name := "flag", description := "", scope := Scope.none,
          _value := PyVal.none } ∧
    numericSetValue
        { name := "num", description := "", scope := Scope.none,
          minimum := Option.none, maximum := Option.none, _value := PyVal.int 7 }
        PyVal.none
      = Except.ok
        { name := "num", description := "", scope := Scope.none,
          minimum := Option.none, maximum := Option.none, _value := PyVal.none } := by
  constructor
  · exact (none_set_returns_unset
      { name := "flag", description := "", scope := Scope.none,
        _value := PyVal.bool true }
      { name := "num", description := "", scope := Scope.none,
        minimum := Option.none, maximum := Option.none, _value := PyVal.int 7 }
      rfl rfl).1
  · exact (none_set_returns_unset
      { name := "flag", description := "", scope := Scope.none,
        _value := PyVal.bool true }
      { name := "num", description := "", scope := Scope.none,
        minimum := Option.none, maximum := Option.none, _value := PyVal.int 7 }
      rfl rfl).2

/-- C10.  On an EnumerationOption built from a list of unique strings,
setting the value to a declared symbol stores the member of that name, and
the value getter then returns exactly that string. -/
theorem enumeration_set_get_roundtrip (name description : String)
    (xs : List String) (o : EnumerationOption) (s : String)
    (hmk : mkEnumerationOption name description xs PyVal.none = Except.ok o)
    (hs : s ∈ xs) :
    enumSetValue o (PyVal.str s) = Except.ok { o with _value := some s } ∧
    enumValueGet { o with _value := some s } = some s := by
  have henum : o.enumeration = xs := by
    by_cases h1 : ':' ∈ name.data
    · simp [mkEnumerationOption, h1] at hmk
    · by_cases h2 : xs.eraseDups.length = xs.length
      · simp [mkEnumerationOption, h1, h2] at hmk
        subst hmk
        rfl
      · simp [mkEnumerationOption, h1, h2] at hmk
  have hmem : s ∈ o.enumeration := henum ▸ hs
  exact ⟨by simp [enumSetValue, asEnumeration, hmem, Except.map], rfl⟩

/-- Witness for C10: the symbol a of the option built over b and a round
trips through set and get. -/
theorem enumeration_set_get_roundtrip_witness :
    enumSetValue
        { name := "e", description := "", scope := Scope.none,
          enumeration := ["b", "a"], _value := Option.none }
        (PyVal.str "a")
      = Except.ok
        { name := "e", description := "", scope := Scope.none,
          enumeration := ["b", "a"], _value := some "a" } ∧
    enumValueGet
        { name := "e", description := "", scope := Scope.none,
          enumeration := ["b", "a"], _value := some "a" }
      = some "a" :=
  enumeration_set_get_roundtrip "e" "" ["b", "a"]
    { name := "e", description := "", scope := Scope.none,
      enumeration := ["b", "a"], _value := Option.none }
    "a" rfl (by decide)

/-- C4.  The values property of an EnumerationOption is exactly the declared
symbol set (a permutation of the declared member names) sorted by name, and
setting a name outside the declared set fails with the ValueError-kind
KeyError of the enum lookup. -/
theorem enumeration_values_sorted_and_rejects_unknown (o : EnumerationOption)
    (s : String) (hs : s ∉ o.enumeration) :
    (enumValues o).Perm o.enumeration ∧
    List.Sorted (fun a b : String => a ≤ b) (enumValues o) ∧
    enumSetValue o (PyVal.str s) = Except.error (PyError.keyError s) := by
  refine ⟨List.perm_insertionSort _ _, ?_, ?_⟩
  · have hs2 : List.Sorted (fun a b : String => a.data ≤ b.data) (enumValues o) := by
      haveI h1 : IsTotal String (fun a b : String => a.data ≤ b.data) := by
        constructor
        intro a b
        rcases le_total a b with h | h
        · exact Or.inl (String.le_iff_toList_le.mp h)
        · exact Or.inr (String.le_iff_toList_le.mp h)
      haveI h2 : IsTrans String (fun a b : String => a.data ≤ b.data) := by
        constructor
        intro a b c hab hbc
        have hab2 : a ≤ b := String.le_iff_toList_le.mpr hab
        have hbc2 : b ≤ c := String.le_iff_toList_le.mpr hbc
        exact String.le_iff_toList_le.mp (le_trans hab2 hbc2)
      exact List.sorted_insertionSort _ _
    exact hs2.imp (fun hab => String.le_iff_toList_le.mpr hab)
  · simp [enumSetValue, asEnumeration, hs, Except.map]

/-- Witness for C4: the option declared over b, a and c lists its symbols in
sorted order and refuses the undeclared symbol z. -/
theorem enumeration_values_sorted_and_rejects_unknown_witness :
    (enumValues
        { name := "e2", description := "", scope := Scope.none,
          enumeration := ["b", "a", "c"], _value := Option.none }).Perm
      ["b", "a", "c"] ∧
    List.Sorted (fun a b : String => a ≤ b)
      (enumValues
        { name := "e2", description := "", scope := Scope.none,
          enumeration := ["b", "a", "c"], _value := Option.none }) ∧
    enumSetValue
        { name := "e2", description := "", scope := Scope.none,
          enumeration := ["b", "a", "c"], _value := Option.none }
        (PyVal.str "z")
      = Except.error (PyError.keyError "z") :=
  enumeration_values_sorted_and_rejects_unknown
    { name := "e2", description := "", scope := Scope.none,
      enumeration := ["b", "a", "c"], _value := Option.none }
    "z" (by decide)

/-- Two strings with the same characters are equal. -/
theorem strEq_of_data (a b : String) (h : a.data = b.data) : a = b := by
  cases a with
  | mk da =>
    cases b with
    | mk db =>
      exact congrArg String.mk h

/-- Counterexample for C5: the set case of format() renders two spaces
between the value and the opening bracket of the hint, not the single space
of the claimed template. -/
theorem format_single_space_refuted :
    StringOption.format
        { name := "opt", description := "", scope := Scope.repo "repo",
          _value := PyVal.str "x" }
      = "repo:opt = x  [String]" ∧
    StringOption.format
        { name := "opt", description := "", scope := Scope.repo "repo",
          _value := PyVal.str "x" }
      ≠ "repo:opt = x [String]" :=
  ⟨rfl, by decide⟩

/-- C5 as amended.  With a value set, format() renders the fullname, an
equals sign, the value, two spaces and the bracketed value-space hint; unset,
it renders the fullname, an equals sign and the bracketed hint.  For
enumeration options this shape is guaranteed while the hint fits the
120-column line budget (a longer hint is truncated with an ellipsis mark in
the set case and line-wrapped in the unset case). -/
theorem format_rendering_shape :
    (∀ o : StringOption, o._value = PyVal.none →
      StringOption.format o = fullname o.scope o.name ++ " = [String]") ∧
    (∀ o : StringOption, o._value ≠ PyVal.none →
      StringOption.format o =
        fullname o.scope o.name ++ " = " ++ pyStr o._value ++ "  [String]") ∧
    (∀ o : BooleanOption, o._value = PyVal.none →
      BooleanOption.format o = fullname o.scope o.name ++ " = [True, False]") ∧
    (∀ o : BooleanOption, o._value ≠ PyVal.none →
      BooleanOption.format o =
        fullname o.scope o.name ++ " = " ++ pyStr o._value ++ "  [True, False]") ∧
    (∀ o : NumericOption, o._value = PyVal.none →
      NumericOption.format o =
        fullname o.scope o.name ++ " = [" ++ numericValuesHint o ++ "]") ∧
    (∀ o : NumericOption, o._value ≠ PyVal.none →
      NumericOption.format o =
        fullname o.scope o.name ++ " = " ++ pyStr o._value ++ "  [" ++
          numericValuesHint o ++ "]") ∧
    (∀ (o : EnumerationOption) (v : String), o._value = some v →
      (enumValuesHint o).length + ((fullname o.scope o.name ++ " = ").length + 4) ≤ 120 →
      enumFormat o =
        fullname o.scope o.name ++ " = " ++ v ++ "  [" ++ enumValuesHint o ++ "]") ∧
    (∀ o : EnumerationOption, o._value = Option.none →
      ((enumValuesHint o).length : Int) ≤
        (120 : Int) - (((fullname o.scope o.name ++ " = ").length : Nat) : Int) - 1 →
      (∀ c ∈ (enumValuesHint o).data, c ≠ '\n') →
      enumFormat o = fullname o.scope o.name ++ " = [" ++ enumValuesHint o ++ "]") := by
  refine ⟨fun o h => ?_, fun o h => ?_, fun o h => ?_, fun o h => ?_,
    fun o h => ?_, fun o h => ?_, fun o v hv hfit => ?_, fun o hv hfit hnl => ?_⟩
  · unfold StringOption.format optionFormat
    rw [if_pos h]
    apply strEq_of_data
    simp only [strData_append, List.append_assoc]
    rfl
  · unfold StringOption.format optionFormat
    rw [if_neg h]
    apply strEq_of_data
    simp only [strData_append, List.append_assoc]
    rfl
  · unfold BooleanOption.format optionFormat
    rw [if_pos h]
    apply strEq_of_data
    simp only [strData_append, List.append_assoc]
    rfl
  · unfold BooleanOption.format optionFormat
    rw [if_neg h]
    apply strEq_of_data
    simp only [strData_append, List.append_assoc]
    rfl
  · unfold NumericOption.format optionFormat
    rw [if_pos h]
  · unfold NumericOption.format optionFormat
    rw [if_neg h]
  · simp only [enumFormat, hv]
    rw [if_neg (by omega)]
  · simp only [enumFormat, hv]
    rw [wordwrap, if_pos hfit, indentStr, indentChars_no_newline _ _ hnl]
    apply strEq_of_data
    simp only [strData_append, List.append_assoc]
    rfl

/-- Witness for C5: the amended shapes at concrete options of each branch. -/
theorem format_rendering_shape_witness :
    StringOption.format
        { name := "s1", description := "", scope := Scope.none,
          _value := PyVal.int 7 }
      = "s1 = 7  [String]" ∧
    StringOption.format
        { name := "s2", description := "", scope := Scope.none,
          _value := PyVal.none }
      = "s2 = [String]" ∧
    enumFormat
        { name := "e3", description := "", scope := Scope.repo "r",
          enumeration := ["b", "a"], _value := some "a" }
      = "r:e3 = a  [a, b]" ∧
    enumFormat
        { name := "e3", description := "", scope := Scope.repo "r",
          enumeration := ["b", "a"], _value := Option.none }
      = "r:e3 = [a, b]" := by
  refine ⟨?_, ?_, ?_, ?_⟩
  · exact (format_rendering_shape.2.1 _ (by decide)).trans (by rfl)
  · exact (format_rendering_shape.1 _ rfl).trans (by rfl)
  · exact (format_rendering_shape.2.2.2.2.2.2.1 _ "a" rfl (by decide)).trans (by rfl)
  · exact (format_rendering_shape.2.2.2.2.2.2.2 _ rfl (by decide) (by decide)).trans
      (by rfl)

/-- The rendered digits read back: facts about one rendered digit
character. -/
theorem digitToChar_props (d : Nat) (hd : d < 16) :
    charDigit (digitToChar d) = some d ∧ pyIsSpace (digitToChar d) = false ∧
    digitToChar d ≠ '+' ∧ digitToChar d ≠ '-' ∧ digitToChar d ≠ '_' := by
  interval_cases d <;> exact ⟨rfl, rfl, by decide, by decide, by decide⟩

/-- A rendered digit below the base is accepted by the digit test. -/
theorem isDigitFor_digitToChar (b d : Nat) (hd : d < b) (hb16 : b ≤ 16) :
    isDigitFor b (digitToChar d) = true := by
  have h := (digitToChar_props d (by omega)).1
  simp only [isDigitFor, h]
  exact decide_eq_true hd

/-- A character that passes the digit test is not an underscore. -/
theorem isDigitFor_ne_underscore (b : Nat) (c : Char)
    (h : isDigitFor b c = true) : c ≠ '_' := by
  intro heq
  subst heq
  simp [isDigitFor, charDigit] at h

/-- A character that passes the digit test is not whitespace. -/
theorem isDigitFor_not_space (b : Nat) (c : Char)
    (h : isDigitFor b c = true) : pyIsSpace c = false := by
  by_contra hs
  have hs2 : pyIsSpace c = true := by
    cases hcs : pyIsSpace c
    · exact absurd hcs hs
    · rfl
  have hnone : charDigit c = none := by
    simp only [pyIsSpace, Bool.or_eq_true, decide_eq_true_eq] at hs2
    rcases hs2 with ((((h1 | h1) | h1) | h1) | h1) | h1 <;> subst h1 <;> rfl
  simp [isDigitFor, hnone] at h

/-- A nonempty run of base b digits is a valid digit sequence. -/
theorem digitSeq_of_all (b : Nat) :
    ∀ cs : List Char, cs ≠ [] → (∀ c ∈ cs, isDigitFor b c = true) →
      digitSeq b cs = true := by
  intro cs
  induction cs with
  | nil => intro h; exact absurd rfl h
  | cons c cs2 ih =>
    intro _ hall
    cases cs2 with
    | nil => simpa [digitSeq] using hall c (List.mem_cons_self c [])
    | cons c2 cs3 =>
      have hc : isDigitFor b c = true := hall c (List.mem_cons_self _ _)
      have hc2 : isDigitFor b c2 = true :=
        hall c2 (List.mem_cons_of_mem _ (List.mem_cons_self _ _))
      have hrest : ∀ x ∈ c2 :: cs3, isDigitFor b x = true :=
        fun x hx => hall x (List.mem_cons_of_mem _ hx)
      have hne : c2 ≠ '_' := isDigitFor_ne_underscore b c2 hc2
      simp only [digitSeq, hc, Bool.true_and, if_neg hne]
      exact ih (by simp) hrest

/-- Reading the value of a rendered digit run equals the numeric foldl over
the digits. -/
theorem digitsVal_map_digitToChar (b : Nat) :
    ∀ (l : List Nat) (a : Nat), (∀ d ∈ l, d < 16) →
      List.foldl (fun acc c => if c = '_' then acc
          else acc * b + (charDigit c).getD 0) a (l.map digitToChar)
        = List.foldl (fun acc d => acc * b + d) a l := by
  intro l
  induction l with
  | nil => intro a _; rfl
  | cons d l2 ih =>
    intro a hall
    have hd : d < 16 := hall d (List.mem_cons_self _ _)
    have hprops := digitToChar_props d hd
    have hrest : ∀ x ∈ l2, x < 16 := fun x hx => hall x (List.mem_cons_of_mem _ hx)
    simp only [List.map_cons, List.foldl_cons, if_neg hprops.2.2.2.2, hprops.1,
      Option.getD_some]
    exact ih _ hrest

/-- The big-endian foldl over the reversed little-endian digit list recovers
the number the digits denote. -/
theorem foldl_reverse_ofDigits (b : Nat) (l : List Nat) :
    l.reverse.foldl (fun acc d => acc * b + d) 0 = Nat.ofDigits b l := by
  rw [List.foldl_reverse]
  induction l with
  | nil => simp [Nat.ofDigits_nil]
  | cons d l2 ih =>
    simp only [List.foldr_cons, ih, Nat.ofDigits_cons]
    ring

/-- The base b rendering of n is a nonempty digit run that reads back to n
(for any base between 2 and 16). -/
theorem renderChars_spec (b n : Nat) (hb : 2 ≤ b) (hb16 : b ≤ 16) :
    renderChars b n ≠ [] ∧ (∀ c ∈ renderChars b n, isDigitFor b c = true) ∧
    digitsVal b (renderChars b n) = n := by
  by_cases hn : n = 0
  · subst hn
    refine ⟨by simp [renderChars], ?_, ?_⟩
    · intro c hc
      simp [renderChars] at hc
      subst hc
      have h0 : charDigit '0' = some 0 := rfl
      simp only [isDigitFor, h0]
      exact decide_eq_true (by omega)
    · simp [renderChars, digitsVal, charDigit]
  · have hne : Nat.digits b n ≠ [] := Nat.digits_ne_nil_iff_ne_zero.mpr hn
    have hlt : ∀ d ∈ Nat.digits b n, d < b :=
      fun d hd => Nat.digits_lt_base (by omega) hd
    refine ⟨?_, ?_, ?_⟩
    · simp only [renderChars, if_neg hn]
      simp [hne]
    · intro c hc
      simp only [renderChars, if_neg hn, List.mem_map, List.mem_reverse] at hc
      obtain ⟨d, hd, rfl⟩ := hc
      exact isDigitFor_digitToChar b d (hlt d hd) hb16
    · simp only [renderChars, if_neg hn, digitsVal]
      rw [List.map_reverse] at *
      rw [← List.map_reverse]
      rw [digitsVal_map_digitToChar b ((Nat.digits b n).reverse) 0
        (fun d hd => lt_of_lt_of_le (hlt d (List.mem_reverse.mp hd)) hb16)]
      exact (foldl_reverse_ofDigits b (Nat.digits b n)).trans
        (Nat.ofDigits_digits b n)

/-- Parsing the digits after a base marker recovers the rendered number. -/
theorem radixDigitsParse_render (b n : Nat) (hb : 2 ≤ b) (hb16 : b ≤ 16) :
    radixDigitsParse 1 b (renderChars b n) = some (n : Int) := by
  obtain ⟨hne, hall, hval⟩ := renderChars_spec b n hb hb16
  cases hr : renderChars b n with
  | nil => exact absurd hr hne
  | cons c rest =>
    have hc : isDigitFor b c = true := by
      rw [hr] at hall
      exact hall c (List.mem_cons_self _ _)
    have hcne : c ≠ '_' := isDigitFor_ne_underscore b c hc
    have hseq : digitSeq b (c :: rest) = true := by
      rw [← hr]
      exact digitSeq_of_all b _ hne hall
    rw [hr] at hval
    simp [radixDigitsParse, hcne, hseq, hval]

/-- The head digit of a rendered nonzero number is never the zero
character. -/
theorem renderChars_head_ne_zero (b n : Nat) (hb : 2 ≤ b) (hb16 : b ≤ 16)
    (hn : n ≠ 0) (c : Char) (rest : List Char)
    (hr : renderChars b n = c :: rest) : c ≠ '0' := by
  have hne : Nat.digits b n ≠ [] := Nat.digits_ne_nil_iff_ne_zero.mpr hn
  simp only [renderChars, if_neg hn] at hr
  cases hrev : (Nat.digits b n).reverse with
  | nil =>
    rw [hrev] at hr
    simp at hr
  | cons d ds =>
    rw [hrev] at hr
    simp only [List.map_cons, List.cons.injEq] at hr
    have hdigits : Nat.digits b n = ds.reverse ++ [d] := by
      rw [← List.reverse_reverse (Nat.digits b n), hrev, List.reverse_cons]
    have hlast : (Nat.digits b n).getLast? = some d := by
      rw [hdigits]
      exact List.getLast?_concat _
    have hd0 : d ≠ 0 := by
      have hgl := Nat.getLast_digit_ne_zero b hn
      rw [List.getLast?_eq_getLast _ hne] at hlast
      have : (Nat.digits b n).getLast hne = d := by
        exact Option.some.inj hlast
      rw [this] at hgl
      exact hgl
    have hdlt : d < 16 := by
      have : d ∈ Nat.digits b n := by
        rw [hdigits]
        exact List.mem_append_right _ (List.mem_singleton.mpr rfl)
      exact lt_of_lt_of_le (Nat.digits_lt_base (by omega) this) hb16
    rw [← hr.1]
    interval_cases d
    · exact absurd rfl hd0
    all_goals decide

/-- Parsing a rendered decimal literal recovers the number. -/
theorem decimalParse_render (n : Nat) :
    decimalParse 1 (renderChars 10 n) = some (n : Int) := by
  obtain ⟨hne, hall, hval⟩ := renderChars_spec 10 n (by omega) (by omega)
  have hseq : digitSeq 10 (renderChars 10 n) = true := digitSeq_of_all 10 _ hne hall
  have hzok : decZerosOk (renderChars 10 n) = true := by
    by_cases hn : n = 0
    · subst hn
      rfl
    · cases hr : renderChars 10 n with
      | nil => exact absurd hr hne
      | cons c rest =>
        have hc0 : c ≠ '0' := renderChars_head_ne_zero 10 n (by omega) (by omega)
          hn c rest hr
        simp [decZerosOk, hc0]
  simp [decimalParse, hseq, hzok, hval]

/-- Dropping while a predicate that fails on every member drops nothing. -/
theorem dropWhile_eq_self_of (p : Char → Bool) (cs : List Char)
    (h : ∀ c ∈ cs, p c = false) : cs.dropWhile p = cs := by
  cases cs with
  | nil => rfl
  | cons c cs2 => simp [List.dropWhile_cons, h c (List.mem_cons_self c cs2)]

/-- Stripping whitespace from a text without whitespace changes nothing. -/
theorem stripWs_eq_self (cs : List Char)
    (h : ∀ c ∈ cs, pyIsSpace c = false) : stripWs cs = cs := by
  unfold stripWs
  rw [dropWhile_eq_self_of _ _ h,
    dropWhile_eq_self_of _ _ (fun c hc => h c (List.mem_reverse.mp hc)),
    List.reverse_reverse]

/-- A character that passes the digit test is not a sign character. -/
theorem isDigitFor_ne_signs (b : Nat) (c : Char)
    (h : isDigitFor b c = true) : c ≠ '+' ∧ c ≠ '-' := by
  constructor <;> intro heq <;> subst heq <;> simp [isDigitFor, charDigit] at h

/-- On a whitespace-free literal that starts with neither sign, int(s, 0) is
the core dispatch. -/
theorem pyIntBase0_eq_core (s : String) (c : Char) (rest : List Char)
    (hdata : s.data = c :: rest)
    (hns : ∀ x ∈ c :: rest, pyIsSpace x = false)
    (hplus : c ≠ '+') (hminus : c ≠ '-') :
    pyIntBase0 s = pyIntCore 1 (c :: rest) := by
  unfold pyIntBase0
  rw [hdata, stripWs_eq_self _ hns]
  simp [hplus, hminus]

/-- Reading int(s, 0) on the rendered hexadecimal literal of n gives n. -/
theorem pyIntBase0_hexLit (n : Nat) : pyIntBase0 (hexLit n) = some (n : Int) := by
  obtain ⟨hne, hall, hval⟩ := renderChars_spec 16 n (by omega) (by omega)
  have hcore : pyIntBase0 (hexLit n) = pyIntCore 1 ('0' :: 'x' :: renderChars 16 n) := by
    refine pyIntBase0_eq_core _ _ _ rfl ?_ (by decide) (by decide)
    intro x hx
    rcases List.mem_cons.mp hx with rfl | hx2
    · rfl
    rcases List.mem_cons.mp hx2 with rfl | hx3
    · rfl
    exact isDigitFor_not_space 16 x (hall x hx3)
  rw [hcore]
  have hdisp : pyIntCore 1 ('0' :: 'x' :: renderChars 16 n)
      = radixDigitsParse 1 16 (renderChars 16 n) := by
    simp [pyIntCore]
  rw [hdisp]
  exact radixDigitsParse_render 16 n (by omega) (by omega)

/-- Reading int(s, 0) on the rendered octal literal of n gives n. -/
theorem pyIntBase0_octLit (n : Nat) : pyIntBase0 (octLit n) = some (n : Int) := by
  obtain ⟨hne, hall, hval⟩ := renderChars_spec 8 n (by omega) (by omega)
  have hcore : pyIntBase0 (octLit n) = pyIntCore 1 ('0' :: 'o' :: renderChars 8 n) := by
    refine pyIntBase0_eq_core _ _ _ rfl ?_ (by decide) (by decide)
    intro x hx
    rcases List.mem_cons.mp hx with rfl | hx2
    · rfl
    rcases List.mem_cons.mp hx2 with rfl | hx3
    · rfl
    exact isDigitFor_not_space 8 x (hall x hx3)
  rw [hcore]
  have hdisp : pyIntCore 1 ('0' :: 'o' :: renderChars 8 n)
      = radixDigitsParse 1 8 (renderChars 8 n) := by
    simp [pyIntCore]
  rw [hdisp]
  exact radixDigitsParse_render 8 n (by omega) (by omega)

/-- Reading int(s, 0) on the rendered binary literal of n gives n. -/
theorem pyIntBase0_binLit (n : Nat) : pyIntBase0 (binLit n) = some (n : Int) := by
  obtain ⟨hne, hall, hval⟩ := renderChars_spec 2 n (by omega) (by omega)
  have hcore : pyIntBase0 (binLit n) = pyIntCore 1 ('0' :: 'b' :: renderChars 2 n) := by
    refine pyIntBase0_eq_core _ _ _ rfl ?_ (by decide) (by decide)
    intro x hx
    rcases List.mem_cons.mp hx with rfl | hx2
    · rfl
    rcases List.mem_cons.mp hx2 with rfl | hx3
    · rfl
    exact isDigitFor_not_space 2 x (hall x hx3)
  rw [hcore]
  have hdisp : pyIntCore 1 ('0' :: 'b' :: renderChars 2 n)
      = radixDigitsParse 1 2 (renderChars 2 n) := by
    simp [pyIntCore]
  rw [hdisp]
  exact radixDigitsParse_render 2 n (by omega) (by omega)

/-- A plain literal without base marker is handled by decimalParse. -/
theorem pyIntCore_eq_decimalParse (sign : Int) (cs : List Char)
    (h : ∀ c c2 rest2, cs = c :: c2 :: rest2 → c ≠ '0') :
    pyIntCore sign cs = decimalParse sign cs := by
  cases cs with
  | nil => simp [pyIntCore]
  | cons c cs2 =>
    cases cs2 with
    | nil => simp [pyIntCore]
    | cons c2 rest2 =>
      have hc := h c c2 rest2 rfl
      simp [pyIntCore, hc]

/-- Reading int(s, 0) on the rendered decimal literal of n gives n. -/
theorem pyIntBase0_decLit (n : Nat) : pyIntBase0 (decLit n) = some (n : Int) := by
  by_cases hn : n = 0
  · subst hn
    decide
  · obtain ⟨hne, hall, hval⟩ := renderChars_spec 10 n (by omega) (by omega)
    cases hr : renderChars 10 n with
    | nil => exact absurd hr hne
    | cons c rest =>
      have hc : isDigitFor 10 c = true := by
        rw [hr] at hall
        exact hall c (List.mem_cons_self _ _)
      have hsigns := isDigitFor_ne_signs 10 c hc
      have hcore : pyIntBase0 (decLit n) = pyIntCore 1 (c :: rest) := by
        refine pyIntBase0_eq_core _ _ _ ?_ ?_ hsigns.1 hsigns.2
        · show renderChars 10 n = c :: rest
          exact hr
        · intro x hx
          rw [hr] at hall
          exact isDigitFor_not_space 10 x (hall x hx)
      have hdec : pyIntCore 1 (c :: rest) = decimalParse 1 (c :: rest) := by
        refine pyIntCore_eq_decimalParse 1 _ ?_
        intro c3 c2 rest2 heq
        injection heq with h1 h2
        subst h1
        subst h2
        exact renderChars_head_ne_zero 10 n (by omega) (by omega) hn c
          (c2 :: rest2) hr
      rw [hcore, hdec, ← hr]
      exact decimalParse_render n

/-- A string literal that parses as an int is coerced to that int by
as_numeric_value. -/
theorem asNumericValue_of_parse (s : String) (m : Int)
    (h : pyIntBase0 s = some m) :
    asNumericValue (PyVal.str s) = Except.ok (PyVal.int m) := by
  simp [asNumericValue, h]

/-- Setting a numeric option with a value that coerces to an int always
stores that int: the range guards compare two ints and cannot raise. -/
theorem numericSetValue_of_int (o : NumericOption) (v : PyVal) (m : Int)
    (h : asNumericValue v = Except.ok (PyVal.int m)) :
    numericSetValue o v = Except.ok { o with _value := PyVal.int m } := by
  unfold numericSetValue
  rw [h]
  cases hmin : o.minimum <;> cases hmax : o.maximum <;>
    simp [numericRangeGuard, pyLtInt, Except.map]

/-- C8.  For every numeric option and every natural number n, setting the
option with the base-marked hexadecimal, octal or binary literal of n parses
to the same integer as setting it with the decimal literal of n: all four
sets succeed and store the integer n, so in particular the hexadecimal set
equals the decimal set. -/
theorem radix_literal_equivalence (o : NumericOption) (n : Nat) :
    numericSetValue o (PyVal.str (hexLit n))
      = Except.ok { o with _value := PyVal.int (n : Int) } ∧
    numericSetValue o (PyVal.str (octLit n))
      = Except.ok { o with _value := PyVal.int (n : Int) } ∧
    numericSetValue o (PyVal.str (binLit n))
      = Except.ok { o with _value := PyVal.int (n : Int) } ∧
    numericSetValue o (PyVal.str (decLit n))
      = Except.ok { o with _value := PyVal.int (n : Int) } ∧
    numericSetValue o (PyVal.str (hexLit n))
      = numericSetValue o (PyVal.str (decLit n)) := by
  have hh := numericSetValue_of_int o _ _
    (asNumericValue_of_parse _ _ (pyIntBase0_hexLit n))
  have ho := numericSetValue_of_int o _ _
    (asNumericValue_of_parse _ _ (pyIntBase0_octLit n))
  have hb := numericSetValue_of_int o _ _
    (asNumericValue_of_parse _ _ (pyIntBase0_binLit n))
  have hd := numericSetValue_of_int o _ _
    (asNumericValue_of_parse _ _ (pyIntBase0_decLit n))
  exact ⟨hh, ho, hb, hd, hh.trans hd.symm⟩
